import Mathlib

/-!
Shallow embedding of `src/game.rs` (Conway's Game of Life on a toroidal
grid) and verification of its specification.

Machine integers (`u32`, `u8`, `usize`) are embedded as `Nat`; the values
handled by the claims stay far below every relevant modulus, so overflow
never occurs on the inputs exercised here.  Panicking accesses
(`slice[idx]`, slice ranges) are embedded as `Option`-returning lookups
where a claim is about their failure, and as `getD`-style total lookups
where the surrounding invariant guarantees the index is in range.
-/

/-- Cell state, from `enum Cell { Alive, Dead }`. -/
inductive Cell where
  | Alive : Cell
  | Dead : Cell
deriving DecidableEq, Repr

namespace Cell

/-- From `Cell::is_alive`. -/
def is_alive : Cell → Bool
  | Alive => true
  | Dead => false

/-- From `Cell::set_state`: the B3/S23 rule on the current state and the
live-neighbour count `n` (a `u8` in the source, embedded as `Nat`). -/
def set_state (c : Cell) (n : Nat) : Cell :=
  match c, n with
  | Alive, 3 => Alive
  | Alive, 2 => Alive
  | Dead, 3 => Alive
  | _, _ => Dead

end Cell

/-- From `struct World { grid: Vec<Cell>, width: u32, height: u32 }`. -/
structure World where
  grid : List Cell
  width : Nat
  height : Nat
deriving DecidableEq, Repr

/-- The documented invariant `grid.len() == width * height`. -/
def dimension_invariant (w : World) : Prop :=
  w.grid.length = w.width * w.height

instance (w : World) : Decidable (dimension_invariant w) := by
  unfold dimension_invariant; infer_instance

namespace World

/-- From `World::new`.  The source draws one random boolean per cell from
`rand::thread_rng()`, in index order; the random source is embedded as a
function `rng` from the cell's position to the boolean drawn for it.  The
source initialises every cell to `Dead` and flips it to `Alive` when the
draw is `true`, which is the map below. -/
def new (width height : Nat) (rng : Nat → Bool) : World :=
  { grid := (List.range (width * height)).map
      (fun i => if rng i then Cell.Alive else Cell.Dead)
    width := width
    height := height }

/-- From `World::get_index`: the row-major flat index `row * width + col`. -/
def get_index (w : World) (row col : Nat) : Nat :=
  row * w.width + col

/-- From `World::get_row`: the slice `&self.grid[start..end]` with
`start = row * width`, `end = (row + 1) * width`.  A Rust range slice
panics exactly when `end` exceeds the length (here `start ≤ end` always),
embedded as `none`. -/
def get_row (w : World) (row : Nat) : Option (List Cell) :=
  let start := row * w.width
  let stop := (row + 1) * w.width
  if stop ≤ w.grid.length then
    some ((w.grid.drop start).take (stop - start))
  else
    none

/-- From `World::get_num_alive_neighbours`: two nested `for` loops over the
delta arrays `[height - 1, 0, 1]` and `[width - 1, 0, 1]`, skipping the
pair `(0, 0)` and counting `Alive` cells at the wrapped positions.  The
source's panicking read `self.grid[idx]` is embedded with `getD`; under
the dimension invariant with positive dimensions the index is always in
range, so the default is never consulted by the claims proved below. -/
def get_num_alive_neighbours (w : World) (row col : Nat) : Nat :=
  [w.height - 1, 0, 1].foldl (fun acc delta_row =>
    [w.width - 1, 0, 1].foldl (fun acc2 delta_col =>
      if delta_row = 0 ∧ delta_col = 0 then
        acc2
      else
        let n_row := (delta_row + row) % w.height
        let n_col := (delta_col + col) % w.width
        let idx := w.get_index n_row n_col
        if w.grid.getD idx Cell.Dead = Cell.Alive then acc2 + 1 else acc2)
      acc) 0

/-- From `World::evolve`: clone the grid, then for every `(row, col)` in
row-major order overwrite the clone at `get_index row col` with
`set_state` of the old cell and the old grid's neighbour count, and
finally install the new grid.  All reads go through the pre-advance `w`;
the write `new_grid[idx] = …` is embedded as `List.set` (in range under
the dimension invariant, where Rust's indexing cannot panic). -/
def evolve (w : World) : World :=
  let new_grid := (List.range w.height).foldl (fun g row =>
    (List.range w.width).foldl (fun g2 col =>
      let idx := w.get_index row col
      let num_neighbours := w.get_num_alive_neighbours row col
      g2.set idx ((w.grid.getD idx Cell.Dead).set_state num_neighbours)) g)
    w.grid
  { w with grid := new_grid }

/-- From `impl Index<usize> for World`: `&self.grid[i]`, which panics when
`i` is out of range; embedded as an `Option` lookup. -/
def index (w : World) (i : Nat) : Option Cell :=
  w.grid[i]?

end World

namespace Row

/-- From `impl fmt::Display for Row`: each cell renders as `'#'` when
alive and `' '` otherwise, concatenated in order with no separators. -/
def render (cells : List Cell) : String :=
  String.mk (cells.map (fun cell => if cell.is_alive then '#' else ' '))

end Row

/-- Modelled from the spec (§4.1 neighbour count): the count of `Alive`
cells over the 8 delta pairs `{−1, 0, +1} × {−1, 0, +1}` minus `(0, 0)`,
with `−1` represented by adding `height − 1` (resp. `width − 1`) before
the modulus.  Used as the specification side of claim C3. -/
def spec_num_alive_neighbours (w : World) (row col : Nat) : Nat :=
  let rep_row : Int → Nat := fun d => if d = -1 then w.height - 1 else d.toNat
  let rep_col : Int → Nat := fun d => if d = -1 then w.width - 1 else d.toNat
  (([(-1, -1), (-1, 0), (-1, 1), (0, -1), (0, 1), (1, -1), (1, 0), (1, 1)] :
      List (Int × Int)).map (fun p =>
    let n_row := (rep_row p.1 + row) % w.height
    let n_col := (rep_col p.2 + col) % w.width
    if w.grid.getD (n_row * w.width + n_col) Cell.Dead = Cell.Alive then 1
    else 0)).sum

/-- Indicator that the cell at flat index `i` of `w` is alive, used to
state the neighbour-count claims. -/
def aliveInd (w : World) (i : Nat) : Nat :=
  if w.grid.getD i Cell.Dead = Cell.Alive then 1 else 0

/-- Indicator of a decidable proposition, the common normal form for the
two neighbour-count definitions. -/
def ind (P : Prop) [Decidable P] : Nat :=
  if P then 1 else 0

/-- The value `World::evolve` writes at position `(row, col)`: the rule
applied to the pre-advance cell and the pre-advance neighbour count. -/
def evolveValue (w : World) (row col : Nat) : Cell :=
  (w.grid.getD (w.get_index row col) Cell.Dead).set_state
    (w.get_num_alive_neighbours row col)

/-- The inner `for col in 0..n` loop of `World::evolve`, acting on an
accumulator grid `g`. -/
def evolveRowStep (w : World) (row : Nat) (g : List Cell) (n : Nat) :
    List Cell :=
  (List.range n).foldl (fun g2 col =>
    g2.set (w.get_index row col) (evolveValue w row col)) g

/-- The outer `for row in 0..n` loop of `World::evolve`. -/
def evolveRows (w : World) (g : List Cell) (n : Nat) : List Cell :=
  (List.range n).foldl (fun g2 row => evolveRowStep w row g2 w.width) g

/-- The 5×5 "blinker" world of the source's `test_evolve`: all dead except
flat indices 7, 12, 17. -/
def blinkerWorld : World :=
  { grid :=
      [Cell.Dead, Cell.Dead, Cell.Dead, Cell.Dead, Cell.Dead,
       Cell.Dead, Cell.Dead, Cell.Alive, Cell.Dead, Cell.Dead,
       Cell.Dead, Cell.Dead, Cell.Alive, Cell.Dead, Cell.Dead,
       Cell.Dead, Cell.Dead, Cell.Alive, Cell.Dead, Cell.Dead,
       Cell.Dead, Cell.Dead, Cell.Dead, Cell.Dead, Cell.Dead]
    width := 5
    height := 5 }

/-- A 3×1 single-row world, the concrete input on which the code's
neighbour count departs from the 8-delta-pair specification. -/
def oneRowWorld : World :=
  { grid := [Cell.Alive, Cell.Dead, Cell.Dead], width := 3, height := 1 }

/-- A 1×1 world used to witness the out-of-range access behaviour. -/
def unitWorld : World :=
  { grid := [Cell.Dead], width := 1, height := 1 }

/-- Two separately written 2×1 worlds with identical contents, used to
witness generation determinism. -/
def pairWorldA : World :=
  { grid := [Cell.Alive, Cell.Dead], width := 2, height := 1 }

/-- The second of the two separately written identical worlds. -/
def pairWorldB : World :=
  { grid := [Cell.Alive, Cell.Dead], width := 2, height := 1 }

/-- The 3×3 world of the source's `test_get_num_alive_neighbours`
(a vertical line of three live cells in the middle column). -/
def crossWorld : World :=
  { grid :=
      [Cell.Dead, Cell.Alive, Cell.Dead,
       Cell.Dead, Cell.Alive, Cell.Dead,
       Cell.Dead, Cell.Alive, Cell.Dead]
    width := 3
    height := 3 }

/-- The 3×2 world of the source's `test_world_get_row`. -/
def twoRowWorld : World :=
  { grid :=
      [Cell.Dead, Cell.Dead, Cell.Dead, Cell.Alive, Cell.Alive, Cell.Alive]
    width := 3
    height := 2 }

/-- `World.evolve` is the outer loop run on the cloned grid, over all rows. -/
theorem evolve_eq_evolveRows (w : World) :
    w.evolve = { w with grid := evolveRows w w.grid w.height } := rfl

/-- Unfolding one step of the inner loop of `evolve`. -/
theorem evolveRowStep_succ (w : World) (row : Nat) (g : List Cell) (n : Nat) :
    evolveRowStep w row g (n + 1) =
      (evolveRowStep w row g n).set (w.get_index row n) (evolveValue w row n) := by
  unfold evolveRowStep
  rw [List.range_succ n, List.foldl_append]
  rfl

/-- Unfolding one step of the outer loop of `evolve`. -/
theorem evolveRows_succ (w : World) (g : List Cell) (n : Nat) :
    evolveRows w g (n + 1) = evolveRowStep w n (evolveRows w g n) w.width := by
  unfold evolveRows
  rw [List.range_succ n, List.foldl_append]
  rfl

/-- The inner loop of `evolve` preserves the grid length. -/
theorem evolveRowStep_length (w : World) (row : Nat) (g : List Cell) (n : Nat) :
    (evolveRowStep w row g n).length = g.length := by
  induction n with
  | zero => rfl
  | succ n ih => rw [evolveRowStep_succ, List.length_set, ih]

/-- The outer loop of `evolve` preserves the grid length. -/
theorem evolveRows_length (w : World) (g : List Cell) (n : Nat) :
    (evolveRows w g n).length = g.length := by
  induction n with
  | zero => rfl
  | succ n ih => rw [evolveRows_succ, evolveRowStep_length, ih]

/-- The inner loop of `evolve` over row `row` leaves every position below
`row * width` untouched. -/
theorem evolveRowStep_getElem_lt (w : World) (row : Nat) (g : List Cell)
    (n j : Nat) (hj : j < row * w.width) :
    (evolveRowStep w row g n)[j]? = g[j]? := by
  induction n with
  | zero => rfl
  | succ n ih =>
    rw [evolveRowStep_succ]
    have hne : w.get_index row n ≠ j := by
      simp only [World.get_index]
      omega
    rw [List.getElem?_set_ne hne, ih]

/-- After the inner loop of `evolve` has processed columns `0..n`, every
already-processed in-range position holds its target value. -/
theorem evolveRowStep_getElem_set (w : World) (row : Nat) (g : List Cell)
    (n c : Nat) (hc : c < n) (hidx : w.get_index row c < g.length) :
    (evolveRowStep w row g n)[w.get_index row c]? = some (evolveValue w row c) := by
  induction n with
  | zero => omega
  | succ n ih =>
    rw [evolveRowStep_succ]
    by_cases hcn : c = n
    · rw [hcn] at hidx ⊢
      have hlen : w.get_index row n < (evolveRowStep w row g n).length := by
        rw [evolveRowStep_length]; exact hidx
      exact List.getElem?_set_eq_of_lt _ hlen
    · have hne : w.get_index row n ≠ w.get_index row c := by
        simp only [World.get_index]
        omega
      rw [List.getElem?_set_ne hne]
      exact ih (by omega)

/-- Row-major flat indices of earlier rows lie below the next row's base. -/
theorem flat_lt_of_lt (W r c n : Nat) (hr : r < n) (hc : c < W) :
    r * W + c < n * W := by
  calc r * W + c < r * W + W := Nat.add_lt_add_left hc _
    _ = (r + 1) * W := (Nat.succ_mul r W).symm
    _ ≤ n * W := Nat.mul_le_mul_right W hr

/-- After the outer loop of `evolve` has processed rows `0..n`, every
in-range position of a processed row holds its target value. -/
theorem evolveRows_getElem (w : World) (g : List Cell) (n r c : Nat)
    (hr : r < n) (hc : c < w.width) (hidx : w.get_index r c < g.length) :
    (evolveRows w g n)[w.get_index r c]? = some (evolveValue w r c) := by
  induction n with
  | zero => omega
  | succ n ih =>
    rw [evolveRows_succ]
    by_cases hrn : r = n
    · subst hrn
      exact evolveRowStep_getElem_set w r _ w.width c hc
        (by rw [evolveRows_length]; exact hidx)
    · have hlt : w.get_index r c < n * w.width := by
        simp only [World.get_index]
        exact flat_lt_of_lt w.width r c n (by omega) hc
      rw [evolveRowStep_getElem_lt w n _ w.width _ hlt]
      exact ih (by omega)

/-- C2: for every state `s` and every neighbour count `n ≤ 8`,
`set_state` returns `Alive` exactly when `s = Alive ∧ n ∈ {2, 3}` or
`s = Dead ∧ n = 3`, and `Dead` otherwise. -/
theorem set_state_rule (s : Cell) (n : Nat) (hn : n ≤ 8) :
    (s.set_state n = Cell.Alive ↔
      (s = Cell.Alive ∧ (n = 2 ∨ n = 3)) ∨ (s = Cell.Dead ∧ n = 3)) ∧
    (¬((s = Cell.Alive ∧ (n = 2 ∨ n = 3)) ∨ (s = Cell.Dead ∧ n = 3)) →
      s.set_state n = Cell.Dead) := by
  interval_cases n <;> cases s <;> simp [Cell.set_state]

/-- Witness for C2: a dead cell with 3 neighbours is born, and an alive
cell with 5 neighbours dies. -/
theorem set_state_rule_witness :
    Cell.Dead.set_state 3 = Cell.Alive ∧ Cell.Alive.set_state 5 = Cell.Dead :=
  ⟨(set_state_rule Cell.Dead 3 (by decide)).1.mpr (Or.inr ⟨rfl, rfl⟩),
   (set_state_rule Cell.Alive 5 (by decide)).2 (by decide)⟩

/-- C1: for every valid world with positive dimensions, `evolve` writes at
every flat index `row * width + col` the rule applied to the pre-advance
cell at that index and the neighbour count computed over the pre-advance
grid; the right-hand side mentions only the frozen pre-advance world, so
no new-generation value feeds into another. -/
theorem evolve_cell_from_snapshot (w : World) (hw : 0 < w.width)
    (hh : 0 < w.height) (hinv : dimension_invariant w) (row col : Nat)
    (hr : row < w.height) (hc : col < w.width) :
    (w.evolve).grid[row * w.width + col]? =
      some ((w.grid.getD (row * w.width + col) Cell.Dead).set_state
        (w.get_num_alive_neighbours row col)) := by
  have hidx : w.get_index row col < w.grid.length := by
    rw [hinv, Nat.mul_comm w.width w.height]
    simp only [World.get_index]
    exact flat_lt_of_lt w.width row col w.height hr hc
  have h := evolveRows_getElem w w.grid w.height row col hr hc hidx
  rw [evolve_eq_evolveRows]
  simpa [World.get_index, evolveValue] using h

/-- Witness for C1 on the blinker world at `(row, col) = (2, 1)`. -/
theorem evolve_cell_from_snapshot_witness :
    (blinkerWorld.evolve).grid[2 * blinkerWorld.width + 1]? =
      some ((blinkerWorld.grid.getD (2 * blinkerWorld.width + 1) Cell.Dead).set_state
        (blinkerWorld.get_num_alive_neighbours 2 1)) :=
  evolve_cell_from_snapshot blinkerWorld (by decide) (by decide) (by decide)
    2 1 (by decide) (by decide)

/-- C5: a world built by `new` with positive dimensions satisfies the
dimension invariant, and the invariant together with the `width` and
`height` fields is preserved by every number of `evolve` calls. -/
theorem construct_evolve_dims (wd ht : Nat) (rng : Nat → Bool) (n : Nat)
    (hw : 0 < wd) (hh : 0 < ht) :
    dimension_invariant (World.evolve^[n] (World.new wd ht rng)) ∧
    (World.evolve^[n] (World.new wd ht rng)).width = wd ∧
    (World.evolve^[n] (World.new wd ht rng)).height = ht := by
  induction n with
  | zero =>
    refine ⟨?_, rfl, rfl⟩
    simp [World.new, dimension_invariant]
  | succ n ih =>
    obtain ⟨h1, h2, h3⟩ := ih
    rw [Function.iterate_succ_apply', evolve_eq_evolveRows]
    refine ⟨?_, h2, h3⟩
    unfold dimension_invariant at h1 ⊢
    simpa [evolveRows_length] using h1

/-- Witness for C5 at a 2×3 construction followed by one generation. -/
theorem construct_evolve_dims_witness :
    dimension_invariant (World.evolve^[1] (World.new 2 3 (fun _ => true))) ∧
    (World.evolve^[1] (World.new 2 3 (fun _ => true))).width = 2 ∧
    (World.evolve^[1] (World.new 2 3 (fun _ => true))).height = 3 :=
  construct_evolve_dims 2 3 (fun _ => true) 1 (by decide) (by decide)

/-- C7: `evolve` is deterministic — two worlds with equal cell contents
and equal dimensions evolve to worlds with equal cell contents and equal
dimensions. -/
theorem evolve_deterministic (w1 w2 : World) (hg : w1.grid = w2.grid)
    (hw : w1.width = w2.width) (hh : w1.height = w2.height) :
    (w1.evolve).grid = (w2.evolve).grid ∧
    (w1.evolve).width = (w2.evolve).width ∧
    (w1.evolve).height = (w2.evolve).height := by
  have h : w1 = w2 := by
    cases w1; cases w2; simp_all
  rw [h]
  exact ⟨rfl, rfl, rfl⟩

/-- Witness for C7 on two separately written identical 2×1 worlds. -/
theorem evolve_deterministic_witness :
    (pairWorldA.evolve).grid = (pairWorldB.evolve).grid ∧
    (pairWorldA.evolve).width = (pairWorldB.evolve).width ∧
    (pairWorldA.evolve).height = (pairWorldB.evolve).height :=
  evolve_deterministic pairWorldA pairWorldB rfl rfl rfl

/-- The blinker regression from the source's `test_evolve`: the vertical
line rotates to the horizontal line at flat indices 11, 12, 13. -/
theorem evolve_blinker :
    (blinkerWorld.evolve).grid =
      [Cell.Dead, Cell.Dead, Cell.Dead, Cell.Dead, Cell.Dead,
       Cell.Dead, Cell.Dead, Cell.Dead, Cell.Dead, Cell.Dead,
       Cell.Dead, Cell.Alive, Cell.Alive, Cell.Alive, Cell.Dead,
       Cell.Dead, Cell.Dead, Cell.Dead, Cell.Dead, Cell.Dead,
       Cell.Dead, Cell.Dead, Cell.Dead, Cell.Dead, Cell.Dead] := by
  decide

/-- C6: for every world satisfying the dimension invariant and every
`rowIndex < height`, `get_row` returns exactly the cells at flat indices
`rowIndex * width` through `(rowIndex + 1) * width - 1`, in order, as a
sequence of length `width`. -/
theorem get_row_correct (w : World) (r : Nat) (hinv : dimension_invariant w)
    (hr : r < w.height) :
    ∃ l, w.get_row r = some l ∧ l.length = w.width ∧
      ∀ k, k < w.width → l[k]? = w.grid[r * w.width + k]? := by
  have hle : (r + 1) * w.width ≤ w.grid.length := by
    rw [hinv, Nat.mul_comm w.width w.height]
    exact Nat.mul_le_mul_right w.width hr
  refine ⟨(w.grid.drop (r * w.width)).take ((r + 1) * w.width - r * w.width),
    ?_, ?_, ?_⟩
  · simp [World.get_row, hle]
  · rw [List.length_take, List.length_drop]
    rw [Nat.succ_mul] at hle ⊢
    omega
  · intro k hk
    have hk' : k < (r + 1) * w.width - r * w.width := by
      rw [Nat.succ_mul]; omega
    rw [List.getElem?_take, if_pos hk', List.getElem?_drop]

/-- Witness for C6 on the source's 3×2 `get_row` test world at row 1. -/
theorem get_row_correct_witness :
    ∃ l, twoRowWorld.get_row 1 = some l ∧ l.length = twoRowWorld.width ∧
      ∀ k, k < twoRowWorld.width →
        l[k]? = twoRowWorld.grid[1 * twoRowWorld.width + k]? :=
  get_row_correct twoRowWorld 1 (by decide) (by decide)

/-- C8: on a valid world, `get_row` with a row index at or past `height`
and the positional lookup with a flat index at or past `width * height`
both signal an out-of-bounds fault (no cell value is returned), instead of
clamping or wrapping. -/
theorem out_of_range_access (w : World) (hw : 0 < w.width)
    (hh : 0 < w.height) (hinv : dimension_invariant w) (r i : Nat) :
    (w.height ≤ r → w.get_row r = none) ∧
    (w.width * w.height ≤ i → w.index i = none) := by
  constructor
  · intro hr
    have h1 : (w.height + 1) * w.width ≤ (r + 1) * w.width :=
      Nat.mul_le_mul_right w.width (by omega)
    rw [Nat.succ_mul, Nat.succ_mul] at h1
    have hgt : ¬((r + 1) * w.width ≤ w.grid.length) := by
      rw [hinv, Nat.mul_comm w.width w.height, Nat.succ_mul r w.width]
      omega
    simp [World.get_row, hgt]
  · intro hi
    unfold World.index
    rw [List.getElem?_eq_none_iff]
    rw [hinv]; exact hi

/-- Witness for C8 on the 1×1 world, with row index 5 and flat index 7. -/
theorem out_of_range_access_witness :
    unitWorld.get_row 5 = none ∧ unitWorld.index 7 = none :=
  ⟨(out_of_range_access unitWorld (by decide) (by decide) (by decide) 5 7).1
      (by decide),
   (out_of_range_access unitWorld (by decide) (by decide) (by decide) 5 7).2
      (by decide)⟩

/-- C4 counterexample: `World::new` called with width 0 does not fail
fast — it returns a fully formed world (empty grid, satisfying the
dimension invariant) instead of rejecting the zero dimension. -/
theorem construct_zero_counterexample :
    World.new 0 5 (fun _ => false) =
      { grid := [], width := 0, height := 5 } ∧
    dimension_invariant (World.new 0 5 (fun _ => false)) := by
  exact ⟨rfl, by decide⟩

/-- C4 amended: construction with width 0 or height 0 succeeds and
returns a world with the requested dimensions and an empty cell sequence
(length `width * height = 0`); the zero dimension is not rejected. -/
theorem construct_zero_dims (wd ht : Nat) (rng : Nat → Bool)
    (h : wd = 0 ∨ ht = 0) :
    World.new wd ht rng = { grid := [], width := wd, height := ht } ∧
    dimension_invariant (World.new wd ht rng) := by
  have hz : wd * ht = 0 := by rcases h with h | h <;> simp [h]
  constructor
  · simp [World.new, hz]
  · simp [dimension_invariant, World.new, hz]

/-- Witness for the amended C4 at `Construct(0, 5)`. -/
theorem construct_zero_dims_witness :
    World.new 0 5 (fun _ => true) =
      { grid := [], width := 0, height := 5 } ∧
    dimension_invariant (World.new 0 5 (fun _ => true)) :=
  construct_zero_dims 0 5 (fun _ => true) (Or.inl rfl)

/-- C9: rendering a row produces a string of the row's length whose `k`-th
character is the filled glyph `'#'` for an alive cell and the blank glyph
`' '` for a dead cell, in left-to-right order with nothing else; in
particular `[Dead, Alive, Dead]` renders as the 3-character string
`" # "`. -/
theorem render_row (cells : List Cell) :
    (Row.render cells).length = cells.length ∧
    (∀ k, k < cells.length →
      (Row.render cells).data[k]? =
        some (if (cells.getD k Cell.Dead).is_alive then '#' else ' ')) ∧
    Row.render [Cell.Dead, Cell.Alive, Cell.Dead] = " # " := by
  refine ⟨?_, ?_, ?_⟩
  · simp [Row.render, String.length]
  · intro k hk
    have h1 : cells[k]? = some (cells.getD k Cell.Dead) := by
      simp [List.getD_eq_getElem?_getD, List.getElem?_eq_getElem hk]
    show (cells.map (fun cell => if cell.is_alive then '#' else ' '))[k]? = _
    rw [List.getElem?_map, h1, Option.map_some']
  · rfl

/-- Witness for C9: the middle character of the rendered `[Dead, Alive,
Dead]` row is the filled glyph. -/
theorem render_row_witness :
    (Row.render [Cell.Dead, Cell.Alive, Cell.Dead]).data[1]? =
      some (if (([Cell.Dead, Cell.Alive, Cell.Dead] : List Cell).getD 1
          Cell.Dead).is_alive then '#' else ' ') :=
  (render_row [Cell.Dead, Cell.Alive, Cell.Dead]).2.1 1 (by decide)

/-- Counting steps of the source's neighbour loop, rewritten as adding an
indicator. -/
theorem ite_add_ind (P : Prop) [Decidable P] (a : Nat) :
    (if P then a + 1 else a) = a + ind P := by
  unfold ind; split <;> rfl

/-- The indicator form of a 0/1 conditional. -/
theorem ite_ind (P : Prop) [Decidable P] :
    (if P then 1 else 0 : Nat) = ind P := rfl

/-- The specification-side neighbour count is a sum of eight indicators,
hence at most 8. -/
theorem spec_num_alive_neighbours_le (w : World) (row col : Nat) :
    spec_num_alive_neighbours w row col ≤ 8 := by
  simp only [spec_num_alive_neighbours]
  refine le_trans (List.sum_le_card_nsmul _ 1 ?_) ?_
  · intro x hx
    simp only [List.mem_map] at hx
    obtain ⟨p, hp, rfl⟩ := hx
    split_ifs <;> omega
  · simp

/-- C3 counterexample: on a 3×1 single-row world the code's neighbour
count at `(0, 0)` is 1, while the count over the 8 delta pairs of the
specification is 2 — with height 1 the biased `−1` row delta collides
with delta 0, so the pair `(−1, 0)` is skipped as well.  All of the
claim's premises (positive dimensions, dimension invariant, in-bounds
position) hold at this input. -/
theorem neighbours_spec_counterexample :
    0 < oneRowWorld.width ∧ 0 < oneRowWorld.height ∧
    dimension_invariant oneRowWorld ∧
    oneRowWorld.get_num_alive_neighbours 0 0 = 1 ∧
    spec_num_alive_neighbours oneRowWorld 0 0 = 2 := by
  decide

/-- C3 amended: for every world with width ≥ 2 and height ≥ 2 and every
in-bounds `(row, col)`, the code's neighbour count equals the count of
`Alive` cells over the 8 delta pairs `{−1, 0, +1} × {−1, 0, +1}`
excluding `(0, 0)`, with `−1` represented by adding `height − 1`
(resp. `width − 1`) before the modulus, and the result is at most 8. -/
theorem neighbours_matches_spec (w : World) (row col : Nat)
    (hw : 2 ≤ w.width) (hh : 2 ≤ w.height)
    (hr : row < w.height) (hc : col < w.width) :
    w.get_num_alive_neighbours row col = spec_num_alive_neighbours w row col ∧
    w.get_num_alive_neighbours row col ≤ 8 := by
  have hw1 : ¬(w.width - 1 = 0) := by omega
  have hh1 : ¬(w.height - 1 = 0) := by omega
  have heq : w.get_num_alive_neighbours row col =
      spec_num_alive_neighbours w row col := by
    simp only [World.get_num_alive_neighbours, spec_num_alive_neighbours,
      World.get_index, List.foldl_cons, List.foldl_nil, List.map_cons,
      List.map_nil, List.sum_cons, List.sum_nil, ite_add_ind, ite_ind, hw1,
      hh1, and_true, and_false, false_and, true_and, if_false, if_true,
      eq_self_iff_true, Int.toNat_zero, Int.toNat_one]
    norm_num
    omega
  refine ⟨heq, ?_⟩
  rw [heq]
  exact spec_num_alive_neighbours_le w row col

/-- Witness for the amended C3 on the source's 3×3 cross world at
`(1, 0)`, the position the source test checks against the wrap. -/
theorem neighbours_matches_spec_witness :
    crossWorld.get_num_alive_neighbours 1 0 =
      spec_num_alive_neighbours crossWorld 1 0 ∧
    crossWorld.get_num_alive_neighbours 1 0 ≤ 8 :=
  neighbours_matches_spec crossWorld 1 0 (by decide) (by decide) (by decide)
    (by decide)

/-- C10: on a world of height 1 and width ≥ 2, the biased `−1` row delta
equals delta 0, so only 7 delta pairs are examined: the two horizontal
neighbours are counted three times each and the cell itself once. -/
theorem one_row_neighbour_count (w : World) (col : Nat) (hh : w.height = 1)
    (hw : 2 ≤ w.width) (hc : col < w.width) :
    w.get_num_alive_neighbours 0 col =
      3 * aliveInd w ((col + (w.width - 1)) % w.width) +
      3 * aliveInd w ((col + 1) % w.width) + aliveInd w col := by
  have hw1 : ¬(w.width - 1 = 0) := by omega
  rw [Nat.add_comm col (w.width - 1), Nat.add_comm col 1]
  simp only [World.get_num_alive_neighbours, World.get_index, hh,
    List.foldl_cons, List.foldl_nil, ite_add_ind, hw1, and_true, and_false,
    false_and, true_and, if_false, if_true, eq_self_iff_true, Nat.mod_one,
    Nat.zero_mul, Nat.zero_add, Nat.mod_eq_of_lt hc, aliveInd, ite_ind]
  norm_num
  ring_nf

/-- Witness for C10 on the 3×1 single-row world at column 0. -/
theorem one_row_neighbour_count_witness :
    oneRowWorld.get_num_alive_neighbours 0 0 =
      3 * aliveInd oneRowWorld ((0 + (oneRowWorld.width - 1)) % oneRowWorld.width) +
      3 * aliveInd oneRowWorld ((0 + 1) % oneRowWorld.width) +
      aliveInd oneRowWorld 0 :=
  one_row_neighbour_count oneRowWorld 0 (by decide) (by decide) (by decide)
